import Mathlib

/-!
Verification of the Shopping & Budget agent (`src/agents/shopping_budget_agent.py`).

This file is a shallow embedding of the ingredient-parsing, aggregation,
categorization, pricing, shopping-list-building and budget-evaluation code of
`ShoppingBudgetAgent`, together with theorems settling the specification claims
about that code.

Modelling conventions:
- Python floats are modelled as rationals (`ℚ`); `round(x, 2)` is modelled as
  exact half-to-even rounding to two decimal places on `ℚ`.
- Fallible Python code (code that can raise) is embedded with `Except`:
  `ValueError` and `ZeroDivisionError` become the constructors of `ParseErr`.
- `random.uniform(-variance, variance)` (seeded by `hash(item_name)`) is
  modelled as an uninterpreted deterministic oracle
  `rand : String → ℕ → ℚ → ℚ` taking the item name, the index of the draw and
  the variance; seeding by the item name makes the stream a function of the
  item name, which the oracle reflects.
- Python dicts (insertion-ordered) are modelled as association lists.
-/

namespace ShoppingBudget

/-! ### Python string primitives used by the agent -/

/-- The whitespace characters of Python's `str.strip` / regex `\s`
(ASCII: space, tab, newline, carriage return, vertical tab, form feed). -/
def pyIsSpace (c : Char) : Bool :=
  c = ' ' || c = '\t' || c = '\n' || c = '\r' || c = '\x0b' || c = '\x0c'

/-- Python `str.strip()`: remove leading and trailing whitespace. -/
def pyStrip (s : String) : String :=
  String.mk (((s.toList.dropWhile pyIsSpace).reverse.dropWhile pyIsSpace).reverse)

/-- Whether `needle` is an initial segment of `hay` (helper for substring tests). -/
def leadAgrees : List Char → List Char → Bool
  | _, [] => true
  | [], _ :: _ => false
  | c :: cs, d :: ds => c = d && leadAgrees cs ds

/-- Whether `needle` occurs as a contiguous substring of the second list. -/
def subOccurs (needle : List Char) : List Char → Bool
  | [] => needle.isEmpty
  | c :: rest => leadAgrees (c :: rest) needle || subOccurs needle rest

/-- Python `kw in name` (substring containment test on strings). -/
def pyIn (kw name : String) : Bool :=
  subOccurs kw.toList name.toList

/-- Python `str.lower()` (ASCII): lowercase every character. -/
def pyLower (s : String) : String :=
  String.mk (s.toList.map Char.toLower)

/-- Python `s.split('/')` on a list of characters. -/
def splitOnSlash : List Char → List (List Char)
  | [] => [[]]
  | c :: rest =>
    match splitOnSlash rest with
    | [] => []
    | seg :: segs => if c = '/' then [] :: seg :: segs else (c :: seg) :: segs

/-! ### Rounding

Python's `round(x, 2)` rounds half to even.  On our rational model of floats
this is exact round-half-to-even of `100 * x`. -/

/-- Round a rational to the nearest integer, halves to the even neighbour. -/
def roundHalfEven (q : ℚ) : ℤ :=
  let f := Int.floor q
  let frac := q - f
  if frac < 1 / 2 then f
  else if 1 / 2 < frac then f + 1
  else if f % 2 = 0 then f else f + 1

/-- Python `round(x, 2)` on the rational model of floats. -/
def pyRound2 (x : ℚ) : ℚ :=
  (roundHalfEven (x * 100) : ℚ) / 100

/-! ### Data structures (`@dataclass Ingredient` and the result dicts) -/

/-- `Ingredient` dataclass: name, quantity, unit. -/
structure Ingredient where
  name : String
  quantity : ℚ
  unit : String
deriving DecidableEq, Repr

/-- The Python exceptions that `_parse_ingredient_string` can raise. -/
inductive ParseErr where
  | valueError
  | zeroDivisionError
deriving DecidableEq, Repr

instance {ε α : Type} [DecidableEq ε] [DecidableEq α] : DecidableEq (Except ε α) := fun a b =>
  match a, b with
  | .error e, .error f =>
    if h : e = f then isTrue (by rw [h]) else isFalse (fun hc => by cases hc; exact h rfl)
  | .ok x, .ok y =>
    if h : x = y then isTrue (by rw [h]) else isFalse (fun hc => by cases hc; exact h rfl)
  | .error _, .ok _ => isFalse (fun hc => by cases hc)
  | .ok _, .error _ => isFalse (fun hc => by cases hc)

/-! ### The regex of `_parse_ingredient_string`

The source matches `r'^([\d./]+)?\s*([a-zA-Z]+)?\s+(.+)$'` with `re.match`.
We embed this one pattern directly, with the backtracking order of the Python
`re` engine: each greedy quantifier proposes its candidate lengths from
longest to shortest (down to 0 for `*`, 1 for `+`, and `None` last for an
optional group), and the first full match in that order wins. -/

/-- Character class `[\d./]` of the quantity group. -/
def isQtyChar (c : Char) : Bool :=
  c.isDigit || c = '.' || c = '/'

/-- Character class `[a-zA-Z]` of the unit group. -/
def isAsciiAlpha (c : Char) : Bool :=
  ('a' ≤ c && c ≤ 'z') || ('A' ≤ c && c ≤ 'Z')

/-- Length of the maximal run of class-`p` characters at the head of `s`. -/
def runLen (p : Char → Bool) (s : List Char) : ℕ :=
  (s.takeWhile p).length

/-- Candidate match lengths for a greedy `X+` over class `p`: longest first, ≥ 1. -/
def plusCands (p : Char → Bool) (s : List Char) : List ℕ :=
  ((List.range (runLen p s)).map (· + 1)).reverse

/-- Candidate match lengths for a greedy `X*` over class `p`: longest first, down to 0. -/
def starCands (p : Char → Bool) (s : List Char) : List ℕ :=
  (List.range (runLen p s + 1)).reverse

/-- Candidate match lengths for a greedy optional group `(X+)?`:
the `X+` candidates first, then the group absent (`none`). -/
def optCands (p : Char → Bool) (s : List Char) : List (Option ℕ) :=
  (plusCands p s).map some ++ [none]

/-- Match `(.+)$` against the remaining input: `.` matches any character but a
newline, and `$` matches at the end of the string or just before a trailing
newline.  Returns the text captured by the group. -/
def dotPlusDollar (r : List Char) : Option (List Char) :=
  let run := r.takeWhile (fun c => c ≠ '\n')
  let rest := r.dropWhile (fun c => c ≠ '\n')
  if run.isEmpty then none
  else if rest.isEmpty then some run
  else if rest = ['\n'] then some run
  else none

/-- The three capture groups of the ingredient pattern. -/
structure ReGroups where
  g1 : Option (List Char)
  g2 : Option (List Char)
  g3 : List Char
deriving DecidableEq, Repr

/-- `re.match(r'^([\d./]+)?\s*([a-zA-Z]+)?\s+(.+)$', s)`, with the engine's
backtracking order. -/
def matchPattern (s : List Char) : Option ReGroups :=
  (optCands isQtyChar s).findSome? fun g1c =>
    let k1 := g1c.getD 0
    let s1 := s.drop k1
    (starCands pyIsSpace s1).findSome? fun w1 =>
      let s2 := s1.drop w1
      (optCands isAsciiAlpha s2).findSome? fun g2c =>
        let k2 := g2c.getD 0
        let s3 := s2.drop k2
        (plusCands pyIsSpace s3).findSome? fun w2 =>
          let s4 := s3.drop w2
          (dotPlusDollar s4).map fun g3 =>
            ⟨g1c.map (fun k => s.take k), g2c.map (fun k => s2.take k), g3⟩

/-! ### Quantity parsing (`float(...)` and the fraction branch) -/

/-- Numeric value of a list of decimal digits. -/
def natOfDigits (ds : List Char) : ℕ :=
  ds.foldl (fun a c => 10 * a + (c.toNat - 48)) 0

/-- Python `float(s)` restricted to the strings that can reach it here
(characters drawn from digits and `'.'`): accepted iff the string has at most
one dot and at least one digit; `none` models `ValueError`. -/
def floatOfDigitsDots (s : List Char) : Option ℚ :=
  let whole := s.takeWhile Char.isDigit
  let rest := s.dropWhile Char.isDigit
  match rest with
  | [] => if whole.isEmpty then none else some (natOfDigits whole)
  | '.' :: frac =>
    if frac.all Char.isDigit && (!whole.isEmpty || !frac.isEmpty) then
      some ((natOfDigits whole : ℚ) + (natOfDigits frac : ℚ) / 10 ^ frac.length)
    else none
  | _ => none

/-- The quantity computation of `_parse_ingredient_string`:
`if '/' in quantity_str:` divide the two parts, else `float(quantity_str)`.
A zero denominator raises `ZeroDivisionError`; an unparseable number raises
`ValueError`. -/
def parseQuantity (q : List Char) : Except ParseErr ℚ :=
  if q.contains '/' then
    match splitOnSlash q with
    | p0 :: p1 :: _ =>
      match floatOfDigitsDots p0 with
      | none => .error .valueError
      | some a =>
        match floatOfDigitsDots p1 with
        | none => .error .valueError
        | some b => if b = 0 then .error .zeroDivisionError else .ok (a / b)
    | _ => .error .valueError
  else
    match floatOfDigitsDots q with
    | none => .error .valueError
    | some v => .ok v

/-- `_parse_ingredient_string`: match the pattern against the stripped input;
on a match, parse the quantity (defaulting to `1.0` when the group is absent),
default the unit to `"piece"`, and truncate the name at the first comma; on no
match, fall back to the whole stripped string as the name with quantity 1 and
unit `"piece"`.  Exceptions from the quantity computation propagate. -/
def parse_ingredient_string (ingredient_str : String) : Except ParseErr Ingredient :=
  let stripped := pyStrip ingredient_str
  match matchPattern stripped.toList with
  | some m =>
    let unit := match m.g2 with
      | some u => String.mk u
      | none => "piece"
    match (match m.g1 with
           | some q => parseQuantity q
           | none => Except.ok 1) with
    | .error e => .error e
    | .ok quantity =>
      let name := pyStrip (String.mk (m.g3.takeWhile (fun c => c ≠ ',')))
      .ok ⟨name, quantity, unit⟩
  | none => .ok ⟨stripped, 1, "piece"⟩

/-! ### `_categorize_ingredient` -/

/-- Vegetable keywords (checked first). -/
def vegetables : List String :=
  ["onion", "tomato", "potato", "bell pepper", "pepper", "zucchini",
   "carrot", "spinach", "lettuce", "cabbage", "broccoli", "cauliflower",
   "mushroom", "garlic", "ginger", "celery", "cucumber"]

/-- Fruit keywords. -/
def fruits : List String :=
  ["apple", "banana", "orange", "lemon", "lime", "mango", "berry",
   "strawberry", "grape", "pineapple"]

/-- Grain and pasta keywords. -/
def grains : List String :=
  ["rice", "pasta", "penne", "rigatoni", "spaghetti", "flour", "wheat",
   "bread", "oats", "quinoa", "barley", "noodle"]

/-- Dairy keywords. -/
def dairy : List String :=
  ["milk", "cheese", "mozzarella", "parmesan", "cheddar", "ricotta",
   "yogurt", "butter", "cream", "paneer"]

/-- Protein keywords. -/
def protein : List String :=
  ["chicken", "beef", "pork", "fish", "salmon", "tuna", "egg",
   "tofu", "lentil", "bean", "chickpea"]

/-- Spice and herb keywords. -/
def spices : List String :=
  ["salt", "pepper", "chili", "oregano", "basil", "thyme", "rosemary",
   "cumin", "coriander", "turmeric", "paprika", "cinnamon", "garam masala",
   "bay leaf", "mint", "cilantro", "parsley", "fenugreek", "kasuri methi"]

/-- Oil and sauce keywords (checked last before the `"other"` fallback). -/
def oils : List String :=
  ["oil", "olive oil", "vegetable oil", "butter", "ghee", "sauce",
   "tomato sauce", "soy sauce", "vinegar", "paste", "tomato paste"]

/-- `_categorize_ingredient`: lowercase the name, then scan the category
keyword lists in the source's fixed order (vegetables, fruits, grains, dairy,
protein, spices, oils); the first list containing a keyword that is a
substring of the name decides the category, else `"other"`. -/
def categorize_ingredient (item_name : String) : String :=
  let name := pyLower item_name
  if vegetables.any (fun veg => pyIn veg name) then "vegetables"
  else if fruits.any (fun fruit => pyIn fruit name) then "fruits"
  else if grains.any (fun grain => pyIn grain name) then "grains"
  else if dairy.any (fun d => pyIn d name) then "dairy"
  else if protein.any (fun p => pyIn p name) then "protein"
  else if spices.any (fun spice => pyIn spice name) then "spices"
  else if oils.any (fun o => pyIn o name) then "oils"
  else "other"

/-! ### `_dynamic_price_lookup` -/

/-- One store option dict produced by `_dynamic_price_lookup`. -/
structure StoreOption where
  store : String
  package_size : ℚ
  package_unit : String
  price : ℚ
deriving DecidableEq, Repr

/-- One row of the `category_pricing` table. -/
structure PricingInfo where
  base_price : ℚ
  package_size : ℚ
  package_unit : String
  price_variance : ℚ
deriving DecidableEq, Repr

/-- The `category_pricing` dict of `_dynamic_price_lookup`, with the
`.get(category, category_pricing["other"])` fallback; the `"other"` row uses
the ingredient's own unit as package unit. -/
def category_pricing (unit category : String) : PricingInfo :=
  if category = "vegetables" then ⟨40, 500, "gram", 0.3⟩
  else if category = "fruits" then ⟨60, 500, "gram", 0.25⟩
  else if category = "grains" then ⟨50, 1000, "gram", 0.2⟩
  else if category = "dairy" then ⟨180, 200, "gram", 0.15⟩
  else if category = "protein" then ⟨250, 500, "gram", 0.25⟩
  else if category = "spices" then ⟨30, 50, "gram", 0.4⟩
  else if category = "oils" then ⟨150, 500, "ml", 0.2⟩
  else ⟨100, 500, unit, 0.3⟩

/-- `_dynamic_price_lookup`: look up the category's pricing row, default the
store list to `["Amazon", "Flipkart", "LocalStore"]` when empty, truncate to 3
stores, and give each store the price
`round(base_price * (1 + random.uniform(-variance, variance)), 2)`.
The seeded `random.uniform` draw is the oracle `rand item_name i variance`. -/
def dynamic_price_lookup (rand : String → ℕ → ℚ → ℚ)
    (item_name unit category : String) (stores : List String) : List StoreOption :=
  let pricing_info := category_pricing unit category
  let default_stores := if stores = [] then ["Amazon", "Flipkart", "LocalStore"] else stores
  ((default_stores.take 3).enum).map fun p =>
    let store := p.2
    let variance := pricing_info.price_variance
    let price_multiplier := 1 + rand item_name p.1 variance
    { store := store
      package_size := pricing_info.package_size
      package_unit := pricing_info.package_unit
      price := pyRound2 (pricing_info.base_price * price_multiplier) }

/-! ### `_build_shopping_list_with_prices` -/

/-- A `store_options` entry of a shopping line item (the raw option plus the
agent's currency). -/
structure StoreOptionOut where
  store : String
  package_size : ℚ
  package_unit : String
  price : ℚ
  currency : String
deriving DecidableEq, Repr

/-- The `best_option` dict tracked by the selection loop. -/
structure BestOption where
  chosen_store : String
  packages_needed : ℤ
  chosen_price : ℚ
  effective_cost : ℚ
deriving DecidableEq, Repr

/-- A line item of the shopping list (the per-ingredient dict, with the
`best_option` fields spliced in by `**best_option`). -/
structure LineItem where
  item : String
  category : String
  required_quantity : ℚ
  unit : String
  store_options : List StoreOptionOut
  chosen_store : String
  packages_needed : ℤ
  chosen_price : ℚ
  effective_cost : ℚ
deriving DecidableEq, Repr

/-- The `store_options.append({...})` dict of the loop body. -/
def toOut (currency : String) (o : StoreOption) : StoreOptionOut :=
  { store := o.store
    package_size := o.package_size
    package_unit := o.package_unit
    price := o.price
    currency := currency }

/-- `effective_cost` of a raw option for a required quantity:
`ceil(qty / package_size) * price`. -/
def rawCost (qty : ℚ) (o : StoreOption) : ℚ :=
  (Int.ceil (qty / o.package_size) : ℚ) * o.price

/-- `effective_cost` recomputed from a `store_options` entry of a line item. -/
def outCost (qty : ℚ) (o : StoreOptionOut) : ℚ :=
  (Int.ceil (qty / o.package_size) : ℚ) * o.price

/-- The `best_option` dict built when an option becomes the current best. -/
def mkBest (qty : ℚ) (o : StoreOption) : BestOption :=
  { chosen_store := o.store
    packages_needed := Int.ceil (qty / o.package_size)
    chosen_price := o.price
    effective_cost := rawCost qty o }

/-- The `for opt in options_raw` loop of `_build_shopping_list_with_prices`:
accumulates the `store_options` list and tracks `best_cost` / `best_option`,
replacing the best exactly when `best_cost is None or effective_cost < best_cost`. -/
def optionsLoop (currency : String) (qty : ℚ)
    (store_options : List StoreOptionOut) (best_cost : Option ℚ)
    (best_option : Option BestOption) :
    List StoreOption → List StoreOptionOut × Option ℚ × Option BestOption
  | [] => (store_options, best_cost, best_option)
  | opt :: rest =>
    let packages_needed := Int.ceil (qty / opt.package_size)
    let effective_cost := (packages_needed : ℚ) * opt.price
    let store_options2 := store_options ++ [toOut currency opt]
    match best_cost with
    | none =>
      optionsLoop currency qty store_options2 (some effective_cost) (some (mkBest qty opt)) rest
    | some bc =>
      if effective_cost < bc then
        optionsLoop currency qty store_options2 (some effective_cost) (some (mkBest qty opt)) rest
      else
        optionsLoop currency qty store_options2 best_cost best_option rest

/-- The outer `for (name, unit), qty in aggregate.items()` loop of
`_build_shopping_list_with_prices`, with the `shopping_list` and `total_cost`
accumulators.  `total_cost += best_cost or 0.0` is `best_cost.getD 0` (Python's
`or` maps both `None` and the falsy `0.0` to `0.0`, which is the same value).
`**best_option` requires `best_option` to be set; since `options_raw` is never
empty the `none` default below is unreachable (Python would raise `TypeError`
there). -/
def buildLoop (rand : String → ℕ → ℚ → ℚ) (currency : String) (stores : List String)
    (shopping_list : List LineItem) (total_cost : ℚ) :
    List ((String × String) × ℚ) → List LineItem × ℚ
  | [] => (shopping_list, total_cost)
  | ((name, unit), qty) :: rest =>
    let category := categorize_ingredient name
    let options_raw := dynamic_price_lookup rand name unit category stores
    let res := optionsLoop currency qty [] none none options_raw
    let bo := res.2.2.getD ⟨"", 0, 0, 0⟩
    buildLoop rand currency stores
      (shopping_list ++
        [{ item := name
           category := category
           required_quantity := qty
           unit := unit
           store_options := res.1
           chosen_store := bo.chosen_store
           packages_needed := bo.packages_needed
           chosen_price := bo.chosen_price
           effective_cost := bo.effective_cost }])
      (total_cost + (res.2.1).getD 0) rest

/-- `_build_shopping_list_with_prices`: for each aggregated ingredient choose
the cheapest store option and accumulate the total cost. -/
def build_shopping_list_with_prices (rand : String → ℕ → ℚ → ℚ) (currency : String)
    (aggregate : List ((String × String) × ℚ)) (stores : List String) :
    List LineItem × ℚ :=
  buildLoop rand currency stores [] 0 aggregate

/-! ### `_evaluate_budget` -/

/-- A cost-saving suggestion dict. -/
structure Suggestion where
  impact : String
  category : String
  item : String
  description : String
  estimated_savings : ℚ
deriving DecidableEq, Repr

/-- The dict returned by `_evaluate_budget`. -/
structure EvalResult where
  within_budget : Bool
  amount_over_budget : ℚ
  recipe_change_suggestions : List Suggestion
deriving DecidableEq, Repr

/-- The category-tailored suggestion for one line item (the `if`/`elif` chain
of the suggestion loop); `none` when the item is below every threshold. -/
def suggestionFor (it : LineItem) : Option Suggestion :=
  let category := it.category
  let item_name := it.item
  let cost := it.effective_cost
  if category = "dairy" ∧ cost > 100 then
    some { impact := "high", category := category, item := item_name,
           description := s!"Consider reducing \x27{item_name}\x27 quantity or using a cheaper alternative like plant-based options.",
           estimated_savings := pyRound2 (0.4 * cost) }
  else if category = "protein" ∧ cost > 150 then
    some { impact := "high", category := category, item := item_name,
           description := s!"Replace \x27{item_name}\x27 with more economical protein sources like lentils, chickpeas, or eggs.",
           estimated_savings := pyRound2 (0.5 * cost) }
  else if category = "vegetables" ∧ cost > 80 then
    some { impact := "medium", category := category, item := item_name,
           description := s!"Buy \x27{item_name}\x27 from local markets instead of premium stores for better prices.",
           estimated_savings := pyRound2 (0.25 * cost) }
  else if category = "grains" ∧ cost > 100 then
    some { impact := "medium", category := category, item := item_name,
           description := s!"Purchase \x27{item_name}\x27 in bulk quantities to reduce per-unit cost.",
           estimated_savings := pyRound2 (0.3 * cost) }
  else if cost > 50 then
    some { impact := "low", category := category, item := item_name,
           description := s!"Consider reducing \x27{item_name}\x27 quantity or finding cheaper alternatives.",
           estimated_savings := pyRound2 (0.2 * cost) }
  else none

/-- The `for item in expensive_items` loop of `_evaluate_budget`: breaks once
`suggestions_made >= 5`; items producing no suggestion do not increase the
counter. -/
def suggestLoop (suggestions_made : ℕ) : List LineItem → List Suggestion
  | [] => []
  | it :: rest =>
    if suggestions_made ≥ 5 then []
    else
      match suggestionFor it with
      | some s => s :: suggestLoop (suggestions_made + 1) rest
      | none => suggestLoop suggestions_made rest

/-- The `"critical"` overall-budget suggestion inserted at the head of the
list; its `estimated_savings` is `round(sum(...), 2)` over the per-item
suggestions generated so far. -/
def criticalSummary (amount_over_budget : ℚ) (suggestions : List Suggestion) : Suggestion :=
  let amt := pyRound2 amount_over_budget
  { impact := "critical", category := "budget", item := "Overall Budget",
    description := s!"You are ₹{amt} over budget. Consider implementing the suggestions below to reduce costs.",
    estimated_savings := pyRound2 ((suggestions.map (fun s => s.estimated_savings)).sum) }

/-- Python's `sorted(shopping_list, key=lambda x: x["effective_cost"],
reverse=True)` is the stable descending sort by `effective_cost`; a stable
sort's output is unique, so we model it with Mathlib's stable insertion sort
under the relation "costs at least as much". -/
def pySortedDesc (shopping_list : List LineItem) : List LineItem :=
  List.insertionSort (fun a b => b.effective_cost ≤ a.effective_cost) shopping_list

/-- `_evaluate_budget`: compare `total_cost` with `budget`; when over budget,
generate at most 5 per-item suggestions from the items sorted by
`effective_cost` descending and prepend the critical summary (guarded by
`amount_over_budget > 0`). -/
def evaluate_budget (shopping_list : List LineItem) (total_cost budget : ℚ) : EvalResult :=
  let within_budget := decide (total_cost ≤ budget)
  let amount_over_budget := max 0 (total_cost - budget)
  let recipe_change_suggestions :=
    if within_budget then ([] : List Suggestion)
    else
      let expensive_items := pySortedDesc shopping_list
      let per_item := suggestLoop 0 expensive_items
      if amount_over_budget > 0 then criticalSummary amount_over_budget per_item :: per_item
      else per_item
  { within_budget := within_budget
    amount_over_budget := amount_over_budget
    recipe_change_suggestions := recipe_change_suggestions }

/-! ### Recipe-JSON processing
(`_parse_recipe_json`, `_aggregate_parsed_ingredients`, `process_recipe_ingredients`) -/

/-- The Recipe Agent JSON consumed by `process_recipe_ingredients`: a dict
with optional `"recipe_name"` and `"ingredients"` keys, the latter mapping
section names to lists of ingredient strings. -/
structure RecipeData where
  recipe_name : Option String
  ingredients : Option (List (String × List String))
deriving DecidableEq, Repr

/-- The inner `for item_str in items` loop of `_parse_recipe_json`; the
`if parsed:` check in the source is always true (the parser always returns a
truthy `Ingredient` when it does not raise), so every parsed ingredient is
appended.  Exceptions propagate. -/
def parseItems : List String → Except ParseErr (List Ingredient)
  | [] => .ok []
  | item_str :: rest => do
    let parsed ← parse_ingredient_string item_str
    let more ← parseItems rest
    pure (parsed :: more)

/-- The outer `for section_name, items in ingredients_dict.items()` loop. -/
def parseSections : List (String × List String) → Except ParseErr (List Ingredient)
  | [] => .ok []
  | (_, items) :: rest => do
    let ps ← parseItems items
    let more ← parseSections rest
    pure (ps ++ more)

/-- `_parse_recipe_json`: `recipe_data.get("ingredients", {})` then the nested
parsing loops.  A missing `"ingredients"` key silently yields the empty list. -/
def parse_recipe_json (recipe_data : RecipeData) : Except ParseErr (List Ingredient) :=
  parseSections (recipe_data.ingredients.getD [])

/-- One `aggregate[key] = aggregate.get(key, 0.0) + ing.quantity` update on the
insertion-ordered dict. -/
def dictAdd (aggregate : List ((String × String) × ℚ)) (key : String × String) (q : ℚ) :
    List ((String × String) × ℚ) :=
  if aggregate.any (fun e => e.1 = key) then
    aggregate.map (fun e => if e.1 = key then (e.1, e.2 + q) else e)
  else aggregate ++ [(key, q)]

/-- `_aggregate_parsed_ingredients`: sum quantities by
`(name.strip().lower(), unit.lower())`. -/
def aggregate_parsed_ingredients (ingredients : List Ingredient) :
    List ((String × String) × ℚ) :=
  ingredients.foldl
    (fun aggregate ing =>
      dictAdd aggregate (pyLower (pyStrip ing.name), pyLower ing.unit) ing.quantity)
    []

/-- The result dict of `process_recipe_ingredients`. -/
structure RecipeReport where
  recipe_name : String
  shopping_list : List LineItem
  estimated_total_cost : ℚ
  currency : String
  budget : ℚ
  within_budget : Bool
  amount_over_budget : ℚ
  recipe_change_suggestions : List Suggestion
deriving DecidableEq, Repr

/-- `process_recipe_ingredients`: parse the recipe JSON, aggregate, build the
shopping list and evaluate the budget.  The only exceptions on this path come
from ingredient parsing. -/
def process_recipe_ingredients (rand : String → ℕ → ℚ → ℚ) (currency : String)
    (recipe_data : RecipeData) (stores : List String) (budget : ℚ) :
    Except ParseErr RecipeReport := do
  let parsed_ingredients ← parse_recipe_json recipe_data
  let aggregate := aggregate_parsed_ingredients parsed_ingredients
  let bl := build_shopping_list_with_prices rand currency aggregate stores
  let budget_info := evaluate_budget bl.1 bl.2 budget
  pure { recipe_name := recipe_data.recipe_name.getD "Unknown"
         shopping_list := bl.1
         estimated_total_cost := bl.2
         currency := currency
         budget := budget
         within_budget := budget_info.within_budget
         amount_over_budget := budget_info.amount_over_budget
         recipe_change_suggestions := budget_info.recipe_change_suggestions }

/-! ### Specification predicates and concrete inputs used by the theorems -/

/-- The best-option part of the selection loop in isolation: fold the options,
replacing the current best exactly when the new effective cost is strictly
smaller (so the first minimum wins). -/
def selBest (qty : ℚ) : Option BestOption → List StoreOption → Option BestOption
  | cur, [] => cur
  | cur, opt :: rest =>
    match cur with
    | none => selBest qty (some (mkBest qty opt)) rest
    | some b =>
      if rawCost qty opt < b.effective_cost then selBest qty (some (mkBest qty opt)) rest
      else selBest qty (some b) rest

/-- The invariant claimed for a shopping line item: its effective cost is
`packages_needed * chosen_price`; the chosen store, price and package count
come from one of its `store_options`; that option's effective cost is minimal
among all `store_options` (recomputing `ceil(required_quantity / package_size)
* price` per option); and every option strictly before the chosen one costs
strictly more, so the first minimum wins. -/
def ChosenIsBest (it : LineItem) : Prop :=
  it.effective_cost = (it.packages_needed : ℚ) * it.chosen_price ∧
  ∃ l1 o l2, it.store_options = l1 ++ o :: l2 ∧
    it.chosen_store = o.store ∧
    it.chosen_price = o.price ∧
    it.packages_needed = Int.ceil (it.required_quantity / o.package_size) ∧
    (∀ o2 ∈ it.store_options, it.effective_cost ≤ outCost it.required_quantity o2) ∧
    (∀ o2 ∈ l1, it.effective_cost < outCost it.required_quantity o2)

/-- The line item built for one aggregate entry (the loop body of
`_build_shopping_list_with_prices` in isolation). -/
def builtItem (rand : String → ℕ → ℚ → ℚ) (currency : String) (stores : List String)
    (name unit : String) (qty : ℚ) : LineItem :=
  let category := categorize_ingredient name
  let options_raw := dynamic_price_lookup rand name unit category stores
  let res := optionsLoop currency qty [] none none options_raw
  let bo := res.2.2.getD ⟨"", 0, 0, 0⟩
  { item := name
    category := category
    required_quantity := qty
    unit := unit
    store_options := res.1
    chosen_store := bo.chosen_store
    packages_needed := bo.packages_needed
    chosen_price := bo.chosen_price
    effective_cost := bo.effective_cost }

/-- A fixed oracle for the `random.uniform` draws, used to instantiate the
universally quantified theorems on concrete inputs. -/
def rand0 : String → ℕ → ℚ → ℚ := fun _ _ _ => 0

/-- Concrete aggregate used by the C1 witness. -/
def witAgg : List ((String × String) × ℚ) := [(("rice", "gram"), 250)]

/-- The line item the builder produces for `witAgg` with the `rand0` oracle:
rice is a grain (1000 gram packages at base price 50), 250 grams need one
package. -/
def witItem : LineItem :=
  { item := "rice", category := "grains", required_quantity := 250, unit := "gram",
    store_options := [⟨"Amazon", 1000, "gram", 50, "INR"⟩],
    chosen_store := "Amazon", packages_needed := 1, chosen_price := 50,
    effective_cost := 50 }

/-- Concrete shopping list for the C7 witness: one item of category `"other"`
with effective cost 150, against a budget of 100 and total cost 150. -/
def witSL : List LineItem :=
  [{ item := "cheese", category := "other", required_quantity := 1, unit := "piece",
     store_options := [], chosen_store := "Amazon", packages_needed := 1,
     chosen_price := 150, effective_cost := 150 }]

/-! ### Properties of the option-selection loop -/

/-- Unfolding of the selection loop at a cons with no current best. -/
theorem optionsLoop_cons_none (currency : String) (qty : ℚ) (so : List StoreOptionOut)
    (opt : StoreOption) (rest : List StoreOption) :
    optionsLoop currency qty so none none (opt :: rest) =
      optionsLoop currency qty (so ++ [toOut currency opt])
        (some (rawCost qty opt)) (some (mkBest qty opt)) rest := rfl

/-- Unfolding of the selection loop at a cons with a current best cost. -/
theorem optionsLoop_cons_some (currency : String) (qty : ℚ) (so : List StoreOptionOut)
    (bc : ℚ) (bo : Option BestOption) (opt : StoreOption) (rest : List StoreOption) :
    optionsLoop currency qty so (some bc) bo (opt :: rest) =
      if rawCost qty opt < bc then
        optionsLoop currency qty (so ++ [toOut currency opt])
          (some (rawCost qty opt)) (some (mkBest qty opt)) rest
      else
        optionsLoop currency qty (so ++ [toOut currency opt]) (some bc) bo rest := rfl

/-- Unfolding of `selBest` at a cons with no current best. -/
theorem selBest_cons_none (qty : ℚ) (opt : StoreOption) (rest : List StoreOption) :
    selBest qty none (opt :: rest) = selBest qty (some (mkBest qty opt)) rest := rfl

/-- Unfolding of `selBest` at a cons with a current best. -/
theorem selBest_cons_some (qty : ℚ) (b : BestOption) (opt : StoreOption)
    (rest : List StoreOption) :
    selBest qty (some b) (opt :: rest) =
      if rawCost qty opt < b.effective_cost then selBest qty (some (mkBest qty opt)) rest
      else selBest qty (some b) rest := rfl

/-- The selection loop appends the mapped options to `store_options` and keeps
`best_cost` equal to the effective cost of `best_option`, which evolves as
`selBest`. -/
theorem optionsLoop_eq (currency : String) (qty : ℚ) :
    ∀ (opts : List StoreOption) (so : List StoreOptionOut) (bo : Option BestOption),
      optionsLoop currency qty so (bo.map (fun b => b.effective_cost)) bo opts =
        (so ++ opts.map (toOut currency),
         (selBest qty bo opts).map (fun b => b.effective_cost),
         selBest qty bo opts) := by
  intro opts
  induction opts with
  | nil => intro so bo; simp [optionsLoop, selBest]
  | cons opt rest ih =>
    intro so bo
    cases bo with
    | none =>
      have h := ih (so ++ [toOut currency opt]) (some (mkBest qty opt))
      rw [Option.map_none', optionsLoop_cons_none, selBest_cons_none]
      simpa using h
    | some b =>
      rw [Option.map_some', optionsLoop_cons_some, selBest_cons_some]
      by_cases hlt : rawCost qty opt < b.effective_cost
      · rw [if_pos hlt, if_pos hlt]
        have h := ih (so ++ [toOut currency opt]) (some (mkBest qty opt))
        simpa using h
      · rw [if_neg hlt, if_neg hlt]
        have h := ih (so ++ [toOut currency opt]) (some b)
        simpa using h

/-- Running the selection from a current best `b`: the result exists, costs no
more than `b`, is a lower bound of the remaining options, and is either `b`
itself or the first strictly cheaper option later in the list. -/
theorem selBest_some_spec (qty : ℚ) :
    ∀ (rest : List StoreOption) (b : BestOption),
      ∃ b', selBest qty (some b) rest = some b' ∧
        b'.effective_cost ≤ b.effective_cost ∧
        (∀ o ∈ rest, b'.effective_cost ≤ rawCost qty o) ∧
        (b' = b ∨ ∃ l1 o l2, rest = l1 ++ o :: l2 ∧ b' = mkBest qty o ∧
          b'.effective_cost < b.effective_cost ∧
          ∀ o2 ∈ l1, b'.effective_cost < rawCost qty o2) := by
  intro rest
  induction rest with
  | nil =>
    intro b
    exact ⟨b, rfl, le_refl _, by simp, Or.inl rfl⟩
  | cons a rest ih =>
    intro b
    by_cases hlt : rawCost qty a < b.effective_cost
    · obtain ⟨b', hsel, hle, hall, hcase⟩ := ih (mkBest qty a)
      have hmk : (mkBest qty a).effective_cost = rawCost qty a := rfl
      refine ⟨b', by simp [selBest, hlt, hsel], ?_, ?_, ?_⟩
      · exact le_trans (hmk ▸ hle) hlt.le
      · intro o ho
        rcases List.mem_cons.mp ho with rfl | ho
        · exact hmk ▸ hle
        · exact hall o ho
      · right
        rcases hcase with rfl | ⟨l1, o, l2, hrest, hbo, hblt, hl1⟩
        · exact ⟨[], a, rest, rfl, rfl, hmk ▸ hlt, by simp⟩
        · refine ⟨a :: l1, o, l2, by simp [hrest], hbo, lt_trans (hmk ▸ hblt) hlt, ?_⟩
          intro o2 ho2
          rcases List.mem_cons.mp ho2 with rfl | ho2
          · exact hmk ▸ hblt
          · exact hl1 o2 ho2
    · obtain ⟨b', hsel, hle, hall, hcase⟩ := ih b
      have hge : b.effective_cost ≤ rawCost qty a := not_lt.mp hlt
      refine ⟨b', by simp [selBest, hlt, hsel], hle, ?_, ?_⟩
      · intro o ho
        rcases List.mem_cons.mp ho with rfl | ho
        · exact le_trans hle hge
        · exact hall o ho
      · rcases hcase with rfl | ⟨l1, o, l2, hrest, hbo, hblt, hl1⟩
        · exact Or.inl rfl
        · refine Or.inr ⟨a :: l1, o, l2, by simp [hrest], hbo, hblt, ?_⟩
          intro o2 ho2
          rcases List.mem_cons.mp ho2 with rfl | ho2
          · exact lt_of_lt_of_le hblt hge
          · exact hl1 o2 ho2

/-- Running the selection on a non-empty option list from no current best:
the winner is the first option attaining the minimal effective cost. -/
theorem selBest_none_spec (qty : ℚ) (opts : List StoreOption) (h : opts ≠ []) :
    ∃ l1 o l2, opts = l1 ++ o :: l2 ∧
      selBest qty none opts = some (mkBest qty o) ∧
      (∀ o2 ∈ opts, rawCost qty o ≤ rawCost qty o2) ∧
      (∀ o2 ∈ l1, rawCost qty o < rawCost qty o2) := by
  match opts with
  | [] => exact absurd rfl h
  | a :: rest =>
    obtain ⟨b', hsel, hle, hall, hcase⟩ := selBest_some_spec qty rest (mkBest qty a)
    have hmk : (mkBest qty a).effective_cost = rawCost qty a := rfl
    have hstep : selBest qty none (a :: rest) = selBest qty (some (mkBest qty a)) rest := rfl
    rcases hcase with rfl | ⟨l1, o, l2, hrest, hbo, hblt, hl1⟩
    · refine ⟨[], a, rest, rfl, by rw [hstep, hsel], ?_, by simp⟩
      intro o2 ho2
      rcases List.mem_cons.mp ho2 with rfl | ho2
      · exact le_refl _
      · exact hmk ▸ hall o2 ho2
    · subst hbo
      have hbo' : (mkBest qty o).effective_cost = rawCost qty o := rfl
      refine ⟨a :: l1, o, l2, by simp [hrest], by rw [hstep, hsel], ?_, ?_⟩
      · intro o2 ho2
        rcases List.mem_cons.mp ho2 with rfl | ho2
        · exact le_of_lt (hbo' ▸ hmk ▸ hblt)
        · exact hbo' ▸ hall o2 ho2
      · intro o2 ho2
        rcases List.mem_cons.mp ho2 with rfl | ho2
        · exact hbo' ▸ hmk ▸ hblt
        · exact hbo' ▸ hl1 o2 ho2

/-- The price lookup never returns an empty option list: an empty store list
falls back to the three default stores, and a non-empty one keeps its head. -/
theorem dynamic_price_lookup_ne_nil (rand : String → ℕ → ℚ → ℚ)
    (item_name unit category : String) (stores : List String) :
    dynamic_price_lookup rand item_name unit category stores ≠ [] := by
  rcases stores with _ | ⟨s, ss⟩ <;>
    simp [dynamic_price_lookup, List.take_cons]

/-! ### Properties of the shopping-list builder -/

/-- `outCost` of a mapped option is the `rawCost` of the underlying option. -/
theorem outCost_toOut (qty : ℚ) (currency : String) (o : StoreOption) :
    outCost qty (toOut currency o) = rawCost qty o := rfl

/-- Unfolding of the outer build loop at a cons aggregate entry. -/
theorem buildLoop_cons (rand : String → ℕ → ℚ → ℚ) (currency : String)
    (stores : List String) (shopping_list : List LineItem) (total_cost : ℚ)
    (name unit : String) (qty : ℚ) (rest : List ((String × String) × ℚ)) :
    buildLoop rand currency stores shopping_list total_cost (((name, unit), qty) :: rest) =
      buildLoop rand currency stores
        (shopping_list ++ [builtItem rand currency stores name unit qty])
        (total_cost +
          ((optionsLoop currency qty [] none none
              (dynamic_price_lookup rand name unit (categorize_ingredient name) stores)).2.1).getD 0)
        rest := rfl

/-- The item built for an aggregate entry satisfies the chosen-is-best
invariant, and its effective cost is the `best_cost` the loop adds to the
total. -/
theorem builtItem_spec (rand : String → ℕ → ℚ → ℚ) (currency : String)
    (stores : List String) (name unit : String) (qty : ℚ) :
    ChosenIsBest (builtItem rand currency stores name unit qty) ∧
    ((optionsLoop currency qty [] none none
        (dynamic_price_lookup rand name unit (categorize_ingredient name) stores)).2.1).getD 0 =
      (builtItem rand currency stores name unit qty).effective_cost := by
  set opts := dynamic_price_lookup rand name unit (categorize_ingredient name) stores with hopts
  have hne : opts ≠ [] := dynamic_price_lookup_ne_nil rand name unit (categorize_ingredient name) stores
  have hloop := optionsLoop_eq currency qty opts [] none
  obtain ⟨l1, o, l2, hdec, hsel, hmin, hfirst⟩ := selBest_none_spec qty opts hne
  simp only [Option.map_none', List.nil_append] at hloop
  have hres : optionsLoop currency qty [] none none opts =
      (opts.map (toOut currency), some (rawCost qty o), some (mkBest qty o)) := by
    rw [hloop, hsel]; rfl
  have hitem : builtItem rand currency stores name unit qty =
      { item := name
        category := categorize_ingredient name
        required_quantity := qty
        unit := unit
        store_options := opts.map (toOut currency)
        chosen_store := o.store
        packages_needed := Int.ceil (qty / o.package_size)
        chosen_price := o.price
        effective_cost := rawCost qty o } := by
    simp only [builtItem, ← hopts, hres, Option.getD_some, mkBest]
  refine ⟨⟨?_, ?_⟩, ?_⟩
  · rw [hitem]
    show rawCost qty o = (Int.ceil (qty / o.package_size) : ℚ) * o.price
    rfl
  · rw [hitem]
    refine ⟨l1.map (toOut currency), toOut currency o, l2.map (toOut currency), ?_, rfl, rfl, rfl, ?_, ?_⟩
    · show opts.map (toOut currency) = _
      rw [hdec]
      simp
    · intro o2 ho2
      obtain ⟨x, hx, rfl⟩ := List.mem_map.mp ho2
      show rawCost qty o ≤ outCost qty (toOut currency x)
      rw [outCost_toOut]
      exact hmin x hx
    · intro o2 ho2
      obtain ⟨x, hx, rfl⟩ := List.mem_map.mp ho2
      show rawCost qty o < outCost qty (toOut currency x)
      rw [outCost_toOut]
      exact hfirst x hx
  · rw [hitem]
    simp only [hres, Option.getD_some]

/-- Every item in the output of the build loop either was in the accumulator
already or satisfies the chosen-is-best invariant. -/
theorem buildLoop_mem (rand : String → ℕ → ℚ → ℚ) (currency : String) (stores : List String) :
    ∀ (agg : List ((String × String) × ℚ)) (acc : List LineItem) (tc : ℚ) (it : LineItem),
      it ∈ (buildLoop rand currency stores acc tc agg).1 → it ∈ acc ∨ ChosenIsBest it := by
  intro agg
  induction agg with
  | nil => intro acc tc it h; exact Or.inl h
  | cons e rest ih =>
    obtain ⟨⟨name, unit⟩, qty⟩ := e
    intro acc tc it h
    rw [buildLoop_cons] at h
    rcases ih _ _ it h with hmem | hgood
    · rcases List.mem_append.mp hmem with hacc | hnew
      · exact Or.inl hacc
      · have : it = builtItem rand currency stores name unit qty := List.mem_singleton.mp hnew
        exact Or.inr (this ▸ (builtItem_spec rand currency stores name unit qty).1)
    · exact Or.inr hgood

/-- The build loop extends the accumulator and adds exactly the new items'
effective costs to the running total. -/
theorem buildLoop_total (rand : String → ℕ → ℚ → ℚ) (currency : String) (stores : List String) :
    ∀ (agg : List ((String × String) × ℚ)) (acc : List LineItem) (tc : ℚ),
      ∃ nw : List LineItem,
        buildLoop rand currency stores acc tc agg =
          (acc ++ nw, tc + (nw.map (fun it => it.effective_cost)).sum) := by
  intro agg
  induction agg with
  | nil => intro acc tc; exact ⟨[], by simp [buildLoop]⟩
  | cons e rest ih =>
    obtain ⟨⟨name, unit⟩, qty⟩ := e
    intro acc tc
    obtain ⟨nw, hnw⟩ := ih (acc ++ [builtItem rand currency stores name unit qty])
      (tc + ((optionsLoop currency qty [] none none
        (dynamic_price_lookup rand name unit (categorize_ingredient name) stores)).2.1).getD 0)
    refine ⟨builtItem rand currency stores name unit qty :: nw, ?_⟩
    rw [buildLoop_cons, hnw, (builtItem_spec rand currency stores name unit qty).2]
    simp only [Prod.mk.injEq, List.append_assoc, List.singleton_append, List.map_cons,
      List.sum_cons]
    exact ⟨trivial, by ring⟩

/-! ### Claim C1 -/

/-- C1: every line item produced by `_build_shopping_list_with_prices`
satisfies `effective_cost = packages_needed * chosen_price` with
`packages_needed = ceil(required_quantity / package_size)` of the chosen
option, and the chosen option minimizes the effective cost over all of the
item's `store_options`, the first option attaining the minimum winning ties
(every earlier option costs strictly more). -/
theorem c1_line_item_chosen_is_best (rand : String → ℕ → ℚ → ℚ) (currency : String)
    (aggregate : List ((String × String) × ℚ)) (stores : List String) (it : LineItem)
    (h : it ∈ (build_shopping_list_with_prices rand currency aggregate stores).1) :
    ChosenIsBest it := by
  rcases buildLoop_mem rand currency stores aggregate [] 0 it h with hmem | hgood
  · cases hmem
  · exact hgood

/-- Concrete evaluation: the builder on `witAgg` produces exactly `witItem`. -/
theorem witItem_mem :
    witItem ∈ (build_shopping_list_with_prices rand0 "INR" witAgg ["Amazon"]).1 := by
  have hcat : categorize_ingredient "rice" = "grains" := by decide
  have hceil : Int.ceil ((250 : ℚ) / 1000) = 1 := by
    rw [Int.ceil_eq_iff]
    norm_num
  have hp50 : pyRound2 50 = 50 := by norm_num [pyRound2, roundHalfEven]
  have hopts : dynamic_price_lookup rand0 "rice" "gram" (categorize_ingredient "rice") ["Amazon"] =
      [⟨"Amazon", 1000, "gram", 50⟩] := by
    rw [hcat]
    simp [dynamic_price_lookup, category_pricing, rand0, hp50]
  have hbuilt : builtItem rand0 "INR" ["Amazon"] "rice" "gram" 250 = witItem := by
    simp only [builtItem, hopts, optionsLoop_cons_none, optionsLoop, Option.getD_some]
    simp only [witItem, toOut, mkBest, rawCost]
    rw [hcat]
    simp [category_pricing, rand0, hceil, hp50]
  have hlist : (build_shopping_list_with_prices rand0 "INR" witAgg ["Amazon"]).1 = [witItem] := by
    show (buildLoop rand0 "INR" ["Amazon"] [] 0 [(("rice", "gram"), 250)]).1 = [witItem]
    rw [buildLoop_cons]
    simp [buildLoop, hbuilt]
  rw [hlist]
  exact List.mem_singleton.mpr rfl

theorem c1_line_item_chosen_is_best_witness : ChosenIsBest witItem :=
  c1_line_item_chosen_is_best rand0 "INR" witAgg ["Amazon"] witItem witItem_mem

/-! ### Claim C3 -/

/-- C3: the `total_cost` returned by `_build_shopping_list_with_prices` is
exactly the sum of the `effective_cost` fields of the returned line items. -/
theorem c3_total_cost_eq_sum (rand : String → ℕ → ℚ → ℚ) (currency : String)
    (aggregate : List ((String × String) × ℚ)) (stores : List String) :
    (build_shopping_list_with_prices rand currency aggregate stores).2 =
      (((build_shopping_list_with_prices rand currency aggregate stores).1).map
        (fun it => it.effective_cost)).sum := by
  obtain ⟨nw, hnw⟩ := buildLoop_total rand currency stores aggregate [] 0
  unfold build_shopping_list_with_prices
  rw [hnw]
  simp

/-! ### Claim C2 -/

/-- C2: `_evaluate_budget` returns `within_budget` exactly when
`total_cost <= budget`, `amount_over_budget = max(0, total_cost - budget)`,
and an empty suggestion list whenever the budget is met. -/
theorem c2_evaluate_budget_flags (shopping_list : List LineItem) (total_cost budget : ℚ) :
    ((evaluate_budget shopping_list total_cost budget).within_budget = true ↔
      total_cost ≤ budget) ∧
    (evaluate_budget shopping_list total_cost budget).amount_over_budget =
      max 0 (total_cost - budget) ∧
    (total_cost ≤ budget →
      (evaluate_budget shopping_list total_cost budget).recipe_change_suggestions = []) := by
  refine ⟨by simp [evaluate_budget], rfl, fun h => by simp [evaluate_budget, h]⟩

theorem c2_evaluate_budget_flags_witness :
    (((evaluate_budget [] 100 200).within_budget = true) ↔ (100 : ℚ) ≤ 200) ∧
    (evaluate_budget [] 100 200).amount_over_budget = max 0 (100 - 200) ∧
    (evaluate_budget [] 100 200).recipe_change_suggestions = [] := by
  obtain ⟨h1, h2, h3⟩ := c2_evaluate_budget_flags [] 100 200
  exact ⟨h1, h2, h3 (by norm_num)⟩

/-! ### Properties of the suggestion engine -/

/-- The suggestion loop emits at most `5 - suggestions_made` suggestions. -/
theorem suggestLoop_length :
    ∀ (l : List LineItem) (made : ℕ), (suggestLoop made l).length ≤ 5 - made := by
  intro l
  induction l with
  | nil => intro made; simp [suggestLoop]
  | cons it rest ih =>
    intro made
    by_cases hmade : made ≥ 5
    · simp [suggestLoop, hmade]
    · rcases hs : suggestionFor it with _ | s
      · simpa [suggestLoop, hmade, hs] using ih made
      · have hrec := ih (made + 1)
        simp only [suggestLoop, if_neg hmade, hs, List.length_cons]
        omega

/-- `pyRound2` always returns an integer number of hundredths. -/
theorem pyRound2_cent (x : ℚ) : ∃ n : ℤ, pyRound2 x = (n : ℚ) / 100 :=
  ⟨roundHalfEven (x * 100), rfl⟩

/-- `pyRound2` fixes integer numbers of hundredths. -/
theorem pyRound2_cent_fix (n : ℤ) : pyRound2 ((n : ℚ) / 100) = (n : ℚ) / 100 := by
  have h100 : ((n : ℚ) / 100) * 100 = (n : ℚ) := by
    field_simp
  unfold pyRound2 roundHalfEven
  rw [h100]
  norm_num

/-- Every per-item suggestion's estimated savings is a whole number of
hundredths (it comes out of `round(..., 2)`). -/
theorem suggestionFor_cent (it : LineItem) (s : Suggestion)
    (h : suggestionFor it = some s) : ∃ n : ℤ, s.estimated_savings = (n : ℚ) / 100 := by
  simp only [suggestionFor] at h
  split_ifs at h <;>
    first
      | exact Option.noConfusion h
      | (rw [Option.some.injEq] at h
         subst h
         exact pyRound2_cent _)

/-- Every suggestion emitted by the loop has savings in whole hundredths. -/
theorem suggestLoop_cent :
    ∀ (l : List LineItem) (made : ℕ) (s : Suggestion), s ∈ suggestLoop made l →
      ∃ n : ℤ, s.estimated_savings = (n : ℚ) / 100 := by
  intro l
  induction l with
  | nil => intro made s h; simp [suggestLoop] at h
  | cons it rest ih =>
    intro made s h
    by_cases hmade : made ≥ 5
    · simp [suggestLoop, hmade] at h
    · rcases hs : suggestionFor it with _ | s0
      · rw [suggestLoop, if_neg hmade, hs] at h
        exact ih made s h
      · rw [suggestLoop, if_neg hmade, hs] at h
        rcases List.mem_cons.mp h with rfl | h
        · exact suggestionFor_cent it s hs
        · exact ih (made + 1) s h

/-- A sum of whole-hundredth rationals is a whole number of hundredths. -/
theorem sum_cent :
    ∀ l : List Suggestion,
      (∀ s ∈ l, ∃ n : ℤ, s.estimated_savings = (n : ℚ) / 100) →
      ∃ N : ℤ, (l.map (fun s => s.estimated_savings)).sum = (N : ℚ) / 100 := by
  intro l
  induction l with
  | nil => intro _; exact ⟨0, by simp⟩
  | cons a t ih =>
    intro h
    obtain ⟨n, hn⟩ := h a (List.mem_cons_self a t)
    obtain ⟨N, hN⟩ := ih (fun s hs => h s (List.mem_cons_of_mem a hs))
    refine ⟨n + N, ?_⟩
    rw [List.map_cons, List.sum_cons, hn, hN]
    push_cast
    ring

/-- The critical summary's estimated savings equals the plain sum of the
per-item suggestions' savings (the final `round(..., 2)` is a no-op because
each summand is already rounded to hundredths). -/
theorem criticalSummary_savings (amount : ℚ) (l : List Suggestion)
    (h : ∀ s ∈ l, ∃ n : ℤ, s.estimated_savings = (n : ℚ) / 100) :
    (criticalSummary amount l).estimated_savings =
      (l.map (fun s => s.estimated_savings)).sum := by
  obtain ⟨N, hN⟩ := sum_cent l h
  show pyRound2 ((l.map (fun s => s.estimated_savings)).sum) = _
  rw [hN, pyRound2_cent_fix]

/-! ### Claim C7 -/

/-- C7: whenever the total cost exceeds the budget, the evaluator's suggestion
list is the critical summary followed by the per-item suggestions generated
from the line items stably sorted by `effective_cost` descending; it is
non-empty, its head has impact `"critical"`, there are at most 5 per-item
suggestions, and the summary's estimated savings is exactly the sum of the
per-item suggestions' estimated savings. -/
theorem c7_over_budget_suggestions (sl : List LineItem) (tc bu : ℚ) (h : bu < tc) :
    (evaluate_budget sl tc bu).recipe_change_suggestions =
      criticalSummary (max 0 (tc - bu)) (suggestLoop 0 (pySortedDesc sl)) ::
        suggestLoop 0 (pySortedDesc sl) ∧
    (evaluate_budget sl tc bu).recipe_change_suggestions ≠ [] ∧
    (criticalSummary (max 0 (tc - bu)) (suggestLoop 0 (pySortedDesc sl))).impact = "critical" ∧
    (suggestLoop 0 (pySortedDesc sl)).length ≤ 5 ∧
    (criticalSummary (max 0 (tc - bu)) (suggestLoop 0 (pySortedDesc sl))).estimated_savings =
      ((suggestLoop 0 (pySortedDesc sl)).map (fun s => s.estimated_savings)).sum ∧
    (pySortedDesc sl).Perm sl ∧
    List.Sorted (fun a b => b.effective_cost ≤ a.effective_cost) (pySortedDesc sl) := by
  have hnot : ¬ tc ≤ bu := not_le.mpr h
  have hpos : (0 : ℚ) < max 0 (tc - bu) := by
    rw [lt_max_iff]
    right
    linarith
  refine ⟨?_, ?_, rfl, suggestLoop_length _ 0, ?_, ?_, ?_⟩
  · simp [evaluate_budget, hnot, hpos]
  · simp [evaluate_budget, hnot, hpos]
  · exact criticalSummary_savings _ _ (fun s hs => suggestLoop_cent _ 0 s hs)
  · exact List.perm_insertionSort _ sl
  · haveI h1 : IsTotal LineItem (fun a b => b.effective_cost ≤ a.effective_cost) :=
      ⟨fun a b => le_total b.effective_cost a.effective_cost⟩
    haveI h2 : IsTrans LineItem (fun a b => b.effective_cost ≤ a.effective_cost) :=
      ⟨fun _ _ _ hab hbc => le_trans hbc hab⟩
    exact List.sorted_insertionSort _ sl

theorem c7_over_budget_suggestions_witness :
    (evaluate_budget witSL 150 100).recipe_change_suggestions =
      criticalSummary (max 0 (150 - 100)) (suggestLoop 0 (pySortedDesc witSL)) ::
        suggestLoop 0 (pySortedDesc witSL) ∧
    (evaluate_budget witSL 150 100).recipe_change_suggestions ≠ [] ∧
    (criticalSummary (max 0 (150 - 100)) (suggestLoop 0 (pySortedDesc witSL))).impact =
      "critical" ∧
    (suggestLoop 0 (pySortedDesc witSL)).length ≤ 5 ∧
    (criticalSummary (max 0 (150 - 100)) (suggestLoop 0 (pySortedDesc witSL))).estimated_savings =
      ((suggestLoop 0 (pySortedDesc witSL)).map (fun s => s.estimated_savings)).sum ∧
    (pySortedDesc witSL).Perm witSL ∧
    List.Sorted (fun a b => b.effective_cost ≤ a.effective_cost) (pySortedDesc witSL) :=
  c7_over_budget_suggestions witSL 150 100 (by norm_num)

/-! ### Claim C8 -/

/-- C8 counterexample: with an empty shopping list, total cost 0 and budget 0,
the evaluator reports `within_budget = true`, so a zero budget does not
guarantee `within_budget = false`. -/
theorem c8_zero_budget_within_counterexample :
    (evaluate_budget [] 0 0).within_budget = true := by decide

/-- C8 (amended): a budget of zero or negative together with a strictly
positive total cost is accepted and makes the evaluator report
`within_budget = false` with a non-empty suggestion list. -/
theorem c8_nonpositive_budget_over (sl : List LineItem) (tc bu : ℚ)
    (hb : bu ≤ 0) (htc : 0 < tc) :
    (evaluate_budget sl tc bu).within_budget = false ∧
    (evaluate_budget sl tc bu).recipe_change_suggestions ≠ [] := by
  have hnot : ¬ tc ≤ bu := not_le.mpr (lt_of_le_of_lt hb htc)
  have hpos : (0 : ℚ) < max 0 (tc - bu) := by
    rw [lt_max_iff]
    right
    linarith
  constructor
  · simp [evaluate_budget, hnot]
  · simp [evaluate_budget, hnot, hpos]

theorem c8_nonpositive_budget_over_witness :
    (evaluate_budget [] 10 0).within_budget = false ∧
    (evaluate_budget [] 10 0).recipe_change_suggestions ≠ [] :=
  c8_nonpositive_budget_over [] 10 0 (by norm_num) (by norm_num)

/-! ### Claim C4 -/

/-- C4 (code bug): the ingredient parser is not exception-free and does not
guarantee a positive quantity: `"1.2.3 cups flour"` reaches
`float("1.2.3")`, which raises `ValueError`, and `"0 g sugar"` parses
successfully to quantity 0. -/
theorem c4_parser_raises_or_zero_quantity :
    parse_ingredient_string "1.2.3 cups flour" = .error .valueError ∧
    parse_ingredient_string "0 g sugar" = .ok ⟨"sugar", 0, "g"⟩ := by decide

/-! ### Claim C5 -/

/-- C5 (code bug): a leading fraction with zero denominator is not guarded:
`"1/0 cup rice"` reaches `float("1") / float("0")` and raises
`ZeroDivisionError` instead of falling back. -/
theorem c5_zero_denominator_raises :
    parse_ingredient_string "1/0 cup rice" = .error .zeroDivisionError := by decide

/-! ### Claim C6 -/

/-- C6 counterexample: `"salt to taste"` does match the pattern (the word
`salt` is captured by the unit group), so the parser returns
`Ingredient("to taste", 1.0, "salt")` and not the claimed fallback
`Ingredient("salt to taste", 1.0, "piece")`. -/
theorem c6_salt_to_taste_counterexample :
    parse_ingredient_string "salt to taste" = .ok ⟨"to taste", 1, "salt"⟩ ∧
    parse_ingredient_string "salt to taste" ≠ .ok ⟨"salt to taste", 1, "piece"⟩ := by decide

/-- C6 (amended): for every input string on which the pattern does not match
(for example a single word with no internal whitespace, such as `"salt"`), the
parser returns the entire trimmed input as the name with quantity 1 and unit
`"piece"`. -/
theorem c6_no_match_fallback (s : String)
    (h : matchPattern (pyStrip s).toList = none) :
    parse_ingredient_string s = .ok ⟨pyStrip s, 1, "piece"⟩ := by
  simp only [parse_ingredient_string, h]

theorem c6_no_match_fallback_witness :
    matchPattern (pyStrip "salt").toList = none ∧
    parse_ingredient_string "salt" = .ok ⟨pyStrip "salt", 1, "piece"⟩ :=
  ⟨by decide, c6_no_match_fallback "salt" (by decide)⟩

/-! ### Claim C9 -/

/-- C9 (code bug): recipe data whose `"ingredients"` key is missing is not
rejected: `recipe_data.get("ingredients", {})` silently yields no ingredients
and the pipeline returns a complete report with an empty shopping list, total
cost 0 and no suggestions — no validation error is raised anywhere on this
path. -/
theorem c9_missing_ingredients_silent_empty_report :
    process_recipe_ingredients rand0 "INR" ⟨some "Pasta", none⟩ ["Amazon"] 100 =
      .ok ⟨"Pasta", [], 0, "INR", 100, true, 0, []⟩ := by
  simp [process_recipe_ingredients, parse_recipe_json, parseSections,
    aggregate_parsed_ingredients, build_shopping_list_with_prices, buildLoop,
    evaluate_budget]

/-! ### Claim C10 -/

/-- C10: the categorizer resolves `"olive oil"` (in either capitalization) to
`"oils"` — the vegetable, fruit, grain, dairy, protein and spice keyword
lists are checked first and none of their keywords occurs in the name, and
`"oil"` occurs, so the `oils` list wins before the `"other"` fallback. -/
theorem c10_categorize_olive_oil :
    categorize_ingredient "olive oil" = "oils" ∧
    categorize_ingredient "Olive Oil" = "oils" ∧
    categorize_ingredient "olive oil" ≠ "vegetables" ∧
    categorize_ingredient "olive oil" ≠ "other" := by decide

end ShoppingBudget
